import Mathlib

/-!
# FigChain go-client: verification of the rule-based evaluator, crypto
# pipeline, bootstrap strategies and client facade

Shallow embedding of the figchain/go-client repository.  Go machine
integers are modelled as `Nat` with explicit `% 2 ^ 32` / `% 2 ^ 64`
reductions where overflow matters; Go byte slices are `List Nat` (each
element a byte value); Go maps are association lists queried through a
first-match lookup, with overwriting insertion; fallible Go functions
return `Except`.
-/

namespace FigChain

/-! ## Data model (src/pkg/model/models.go, src/pkg/model/dto.go)

Field renamings forced by Lean keywords: Go `Namespace` is `nspace`,
Go `Variable` is `varName`.  `Fig` carries the optional encryption
fields (`isEncrypted`, `wrappedDek`, `keyId`) that the encryption
service in src/unnamed/part_002 reads (`fig.IsEncrypted`,
`fig.WrappedDek`, `fig.KeyID`); spec section 3 documents them as part
of the `Fig` record. -/

/-- A rule condition (model.Condition): variable name, operator enum
rendered as a string, and the comparison values. -/
structure Condition where
  varName : String
  operator : String
  values : List String
deriving Repr, DecidableEq

/-- A rollout rule (model.Rule). -/
structure Rule where
  description : Option String
  conditions : List Condition
  targetVersion : String
deriving Repr, DecidableEq

/-- Fig metadata (model.FigDefinition); timestamps modelled as `Nat`. -/
structure FigDefinition where
  nspace : String
  key : String
  figId : String
  schemaUri : String
  schemaVersion : String
  createdAt : Nat
  updatedAt : Nat
deriving Repr, DecidableEq

/-- A single configuration version (model.Fig), including the optional
encryption fields used by the encryption service. -/
structure Fig where
  figId : String
  version : String
  payload : List Nat
  isEncrypted : Bool
  wrappedDek : List Nat
  keyId : Option String
deriving Repr, DecidableEq

/-- The versioned bundle for one (namespace, key) (model.FigFamily). -/
structure FigFamily where
  definition : FigDefinition
  figs : List Fig
  rules : List Rule
  defaultVersion : Option String
deriving Repr, DecidableEq

/-- A namespace wrapping key entry (model.NamespaceKey). -/
structure NamespaceKey where
  wrappedKey : String
  keyId : String
deriving Repr, DecidableEq

/-! ## Association-list maps

Go maps (`map[string]string` and friends) are modelled as association
lists: lookup returns the first binding, insertion removes any old
binding and prepends the new one, so lookup agrees with Go map
semantics. -/

/-- First-match lookup in an association list (Go `m[k]` with the
`ok` flag folded into `Option`). -/
def lookupS : List (String × String) → String → Option String
  | [], _ => none
  | (k, v) :: rest, key => if k = key then some v else lookupS rest key

/-- Overwriting insertion (Go `m[k] = v`). -/
def mapInsert (m : List (String × String)) (k v : String) : List (String × String) :=
  (k, v) :: m.filter (fun kv => !decide (kv.1 = k))

theorem lookupS_filter_ne (m : List (String × String)) (k key : String) :
    lookupS (m.filter (fun kv => !decide (kv.1 = k))) key =
      if key = k then none else lookupS m key := by
  induction m with
  | nil => simp [lookupS]
  | cons kv rest ih =>
    by_cases h1 : kv.1 = k
    · rw [show List.filter (fun kv => !decide (kv.1 = k)) (kv :: rest) =
        List.filter (fun kv => !decide (kv.1 = k)) rest by simp [List.filter, h1]]
      rw [ih]
      by_cases h2 : key = k
      · simp [h2]
      · simp only [if_neg h2, lookupS]
        rw [if_neg (by rw [h1]; exact fun hh => h2 hh.symm)]
    · rw [show List.filter (fun kv => !decide (kv.1 = k)) (kv :: rest) =
        kv :: List.filter (fun kv => !decide (kv.1 = k)) rest by simp [List.filter, h1]]
      by_cases h2 : kv.1 = key
      · have h3 : ¬key = k := fun hk => h1 (h2.trans hk)
        simp [lookupS, h2, h3]
      · simp [lookupS, h2, ih]

theorem lookupS_mapInsert (m : List (String × String)) (k v key : String) :
    lookupS (mapInsert m k v) key = if key = k then some v else lookupS m key := by
  unfold mapInsert
  rcases eq_or_ne key k with h | h
  · subst h; simp [lookupS]
  · simp only [lookupS]
    rw [if_neg (fun hh => h hh.symm), lookupS_filter_ne, if_neg h, if_neg h]

/-! ## UTF-8 byte view of strings

Go `string` values are byte sequences holding UTF-8 text; `len(s)` and
`s[i]` in the evaluator iterate over those bytes.  `stringBytes` encodes
a Lean string the same way. -/

/-- UTF-8 encoding of a single code point. -/
def utf8Bytes (c : Char) : List Nat :=
  let n := c.toNat
  if n < 0x80 then [n]
  else if n < 0x800 then
    [0xC0 ||| (n >>> 6), 0x80 ||| (n &&& 0x3F)]
  else if n < 0x10000 then
    [0xE0 ||| (n >>> 12), 0x80 ||| ((n >>> 6) &&& 0x3F), 0x80 ||| (n &&& 0x3F)]
  else
    [0xF0 ||| (n >>> 18), 0x80 ||| ((n >>> 12) &&& 0x3F),
      0x80 ||| ((n >>> 6) &&& 0x3F), 0x80 ||| (n &&& 0x3F)]

/-- The UTF-8 bytes of a string, as Go sees a `string` value. -/
def stringBytes (s : String) : List Nat :=
  s.data.flatMap utf8Bytes

/-! ## Rule-based evaluator (src/pkg/evaluation/evaluator.go)

`RuleBasedEvaluator.compare` parses both sides as IEEE-754 doubles and
falls back to lexicographic byte comparison; floating point is outside
the shallow embedding, so the comparison is abstracted as a parameter
`cmp : String → String → Int` threaded through `matchesCondition`,
`matchesRule` and `evaluate`.  No claim below depends on `cmp`. -/

/-- `RuleBasedEvaluator.getBucket` (evaluator.go lines 212-220): FNV-1a
over the bytes of `key` with 32-bit wraparound, reduced mod 100. -/
def getBucket (key : String) : Nat :=
  ((stringBytes key).foldl
    (fun hash b => ((hash ^^^ b) * 0x01000193) % 2 ^ 32) 0x811c9dc5) % 100

/-- Value of a non-empty all-digit character list, `none` otherwise. -/
def digitsVal : List Char → Option Nat
  | [] => none
  | cs => if cs.all (fun c => c.isDigit) then
      some (cs.foldl (fun acc c => acc * 10 + (c.toNat - 48)) 0)
    else none

/-- Go `strconv.Atoi`: optional sign, decimal digits, 64-bit signed
range; anything else is an error (`none`). -/
def goAtoi (s : String) : Option Int :=
  match s.data with
  | '+' :: rest => (digitsVal rest).bind fun n =>
      if n ≤ 0x7FFFFFFFFFFFFFFF then some (n : Int) else none
  | '-' :: rest => (digitsVal rest).bind fun n =>
      if n ≤ 0x8000000000000000 then some (-(n : Int)) else none
  | cs => (digitsVal cs).bind fun n =>
      if n ≤ 0x7FFFFFFFFFFFFFFF then some (n : Int) else none

/-- `RuleBasedEvaluator.matchesCondition` (evaluator.go lines 161-210).
The attribute map of the `EvaluationContext` is the association list
`attrs`; a missing variable fails the condition before the operator
dispatch. -/
def matchesCondition (cmp : String → String → Int) (c : Condition)
    (attrs : List (String × String)) : Bool :=
  match lookupS attrs c.varName with
  | none => false
  | some val =>
    match c.operator with
    | "EQUALS" =>
      match c.values with
      | v0 :: _ => val = v0
      | [] => false
    | "NOT_EQUALS" =>
      match c.values with
      | v0 :: _ => val ≠ v0
      | [] => false
    | "IN" => c.values.contains val
    | "NOT_IN" => !(c.values.contains val)
    | "CONTAINS" =>
      match c.values with
      | v0 :: _ => decide (v0.data <:+: val.data)
      | [] => false
    | "GREATER_THAN" =>
      match c.values with
      | [v0] => cmp val v0 > 0
      | _ => false
    | "LESS_THAN" =>
      match c.values with
      | [v0] => cmp val v0 < 0
      | _ => false
    | "SPLIT" =>
      match c.values with
      | [] => false
      | v0 :: _ =>
        match goAtoi v0 with
        | none => false
        | some threshold => (getBucket val : Int) < threshold
    | _ => false

/-- `RuleBasedEvaluator.matchesRule`: every condition must match. -/
def matchesRule (cmp : String → String → Int) (r : Rule)
    (attrs : List (String × String)) : Bool :=
  r.conditions.all (fun c => matchesCondition cmp c attrs)

/-- `RuleBasedEvaluator.findFigByVersion` (evaluator.go lines 239-246):
first fig with the requested version, else the
"fig version ... not found" error. -/
def findFigByVersion (ff : FigFamily) (version : String) : Except String Fig :=
  match ff.figs.find? (fun fig => fig.version = version) with
  | some fig => .ok fig
  | none => .error ("fig version " ++ version ++ " not found")

/-- The rule loop of `Evaluate` (evaluator.go lines 138-142): first
matching rule resolves its target version (and the Go function returns
`findFigByVersion`'s pair verbatim); no match falls through. -/
def evaluateRules (cmp : String → String → Int) (ff : FigFamily)
    (attrs : List (String × String)) : List Rule → Option (Except String Fig)
  | [] => none
  | r :: rest =>
    if matchesRule cmp r attrs then some (findFigByVersion ff r.targetVersion)
    else evaluateRules cmp ff attrs rest

/-- `RuleBasedEvaluator.Evaluate` (evaluator.go lines 132-150) for a
non-nil family: rules in order, then the default version, then
"no fig, no error". -/
def evaluate (cmp : String → String → Int) (ff : FigFamily)
    (attrs : List (String × String)) : Except String (Option Fig) :=
  match evaluateRules cmp ff attrs ff.rules with
  | some res => res.map some
  | none =>
    match ff.defaultVersion with
    | some v => (findFigByVersion ff v).map some
    | none => .ok none

/-! ### Spec-side restatement of the evaluation procedure (spec section 4.2) -/

/-- Spec-side resolution of a version reference: the fig whose version
equals the reference, or the `FigVersionMissing` failure. -/
def resolveVersionSpec (ff : FigFamily) (version : String) : Except String (Option Fig) :=
  match ff.figs.find? (fun fig => fig.version = version) with
  | some fig => .ok (some fig)
  | none => .error ("fig version " ++ version ++ " not found")

/-- Spec-side `Evaluate`, written with `List.find?` following the words
of spec section 4.2: the first rule (in rule order) all of whose
conditions match wins; otherwise the default version; otherwise no fig
and no error. -/
def evaluateSpec (cmp : String → String → Int) (ff : FigFamily)
    (attrs : List (String × String)) : Except String (Option Fig) :=
  match ff.rules.find? (fun r => matchesRule cmp r attrs) with
  | some r => resolveVersionSpec ff r.targetVersion
  | none =>
    match ff.defaultVersion with
    | some v => resolveVersionSpec ff v
    | none => .ok none

/-! ### Supporting lemmas for the evaluator claims -/

theorem evaluateRules_eq_find (cmp : String → String → Int) (ff : FigFamily)
    (attrs : List (String × String)) (rules : List Rule) :
    evaluateRules cmp ff attrs rules =
      (rules.find? (fun r => matchesRule cmp r attrs)).map
        (fun r => findFigByVersion ff r.targetVersion) := by
  induction rules with
  | nil => rfl
  | cons r rest ih =>
    by_cases h : matchesRule cmp r attrs = true <;>
      simp [evaluateRules, List.find?, h, ih]

theorem findFigByVersion_map_some (ff : FigFamily) (v : String) :
    (findFigByVersion ff v).map some = resolveVersionSpec ff v := by
  unfold findFigByVersion resolveVersionSpec
  cases ff.figs.find? (fun fig => fig.version = v) <;> rfl

/-- `getBucket` always lands in a residue class mod 100. -/
theorem getBucket_lt_100 (key : String) : getBucket key < 100 :=
  Nat.mod_lt _ (by norm_num)

theorem nat_xor_lt_two_pow {x y n : Nat} (hx : x < 2 ^ n) (hy : y < 2 ^ n) :
    x ^^^ y < 2 ^ n := Nat.bitwise_lt hx hy

theorem nat_or_lt_two_pow {x y n : Nat} (hx : x < 2 ^ n) (hy : y < 2 ^ n) :
    x ||| y < 2 ^ n := Nat.bitwise_lt hx hy

theorem nat_shiftRight_le (n m : Nat) : n >>> m ≤ n := by
  rw [Nat.shiftRight_eq_div_pow]
  exact Nat.div_le_self n (2 ^ m)

/-- Every byte produced by the UTF-8 encoder fits in 32 bits. -/
theorem utf8Bytes_lt (c : Char) : ∀ b ∈ utf8Bytes c, b < 2 ^ 32 := by
  intro b hb
  have hc : c.toNat < 2 ^ 32 := by simpa [Char.toNat] using c.val.toNat_lt
  have hsh : ∀ m : Nat, c.toNat >>> m < 2 ^ 32 :=
    fun m => lt_of_le_of_lt (nat_shiftRight_le _ _) hc
  have hand : ∀ x : Nat, x &&& 0x3F < 2 ^ 32 :=
    fun x => lt_of_le_of_lt Nat.and_le_right (by norm_num)
  simp only [utf8Bytes] at hb
  split at hb
  · simp only [List.mem_singleton] at hb
    subst hb
    exact hc
  · split at hb
    · simp only [List.mem_cons, List.not_mem_nil, or_false] at hb
      rcases hb with rfl | rfl
      · exact nat_or_lt_two_pow (by norm_num) (hsh _)
      · exact nat_or_lt_two_pow (by norm_num) (hand _)
    · split at hb
      · simp only [List.mem_cons, List.not_mem_nil, or_false] at hb
        rcases hb with rfl | rfl | rfl
        · exact nat_or_lt_two_pow (by norm_num) (hsh _)
        · exact nat_or_lt_two_pow (by norm_num) (hand _)
        · exact nat_or_lt_two_pow (by norm_num) (hand _)
      · simp only [List.mem_cons, List.not_mem_nil, or_false] at hb
        rcases hb with rfl | rfl | rfl | rfl
        · exact nat_or_lt_two_pow (by norm_num) (hsh _)
        · exact nat_or_lt_two_pow (by norm_num) (hand _)
        · exact nat_or_lt_two_pow (by norm_num) (hand _)
        · exact nat_or_lt_two_pow (by norm_num) (hand _)

theorem stringBytes_lt (s : String) : ∀ b ∈ stringBytes s, b < 2 ^ 32 := by
  intro b hb
  unfold stringBytes at hb
  rcases List.mem_flatMap.mp hb with ⟨c, _, hbc⟩
  exact utf8Bytes_lt c b hbc

/-- The FNV-1a 32-bit hash as the spec words it: offset basis
`0x811c9dc5`, prime `0x01000193`, all arithmetic reduced mod `2 ^ 32`. -/
def fnv1a32 (bytes : List Nat) : Nat :=
  bytes.foldl (fun hash b => (((hash ^^^ b) % 2 ^ 32) * 0x01000193) % 2 ^ 32) 0x811c9dc5

theorem fnv_fold_eq (bytes : List Nat) :
    ∀ hash : Nat, hash < 2 ^ 32 → (∀ b ∈ bytes, b < 2 ^ 32) →
    bytes.foldl (fun hash b => ((hash ^^^ b) * 0x01000193) % 2 ^ 32) hash =
      bytes.foldl (fun hash b => (((hash ^^^ b) % 2 ^ 32) * 0x01000193) % 2 ^ 32) hash := by
  induction bytes with
  | nil => intro hash _ _; simp
  | cons b rest ih =>
    intro hash hh hb
    have hxor : hash ^^^ b < 2 ^ 32 :=
      nat_xor_lt_two_pow hh (hb b (List.mem_cons_self b rest))
    simp only [List.foldl_cons, Nat.mod_eq_of_lt hxor]
    exact ih _ (Nat.mod_lt _ (by norm_num)) (fun x hx => hb x (List.mem_cons_of_mem b hx))

/-! ### Claim theorems for the evaluator -/

/-- Claim C1: for every non-nil FigFamily and evaluation context,
`Evaluate` returns the fig of the first matching rule's target version,
failing with the version-missing error when that version is absent;
with no matching rule it resolves `defaultVersion` the same way when it
is set, and otherwise returns no fig and no error.  Stated as equality
between the source-shaped `evaluate` and the spec-worded
`evaluateSpec`. -/
theorem evaluate_follows_spec (cmp : String → String → Int) (ff : FigFamily)
    (attrs : List (String × String)) :
    evaluate cmp ff attrs = evaluateSpec cmp ff attrs := by
  unfold evaluate evaluateSpec
  rw [evaluateRules_eq_find]
  cases hf : ff.rules.find? (fun r => matchesRule cmp r attrs) with
  | none =>
    cases hd : ff.defaultVersion with
    | none => rfl
    | some v => exact findFigByVersion_map_some ff v
  | some r => exact findFigByVersion_map_some ff r.targetVersion

/-- Claim C2: a condition whose variable is absent from the context's
attribute map evaluates to false, for every operator (the eight known
ones and unknown ones alike); `matchesCondition` is total, so no error
is possible. -/
theorem condition_missing_variable_false (cmp : String → String → Int)
    (c : Condition) (attrs : List (String × String))
    (h : lookupS attrs c.varName = none) :
    matchesCondition cmp c attrs = false := by
  unfold matchesCondition
  rw [h]

/-- Witness for C2 at a concrete `NOT_EQUALS` condition and an attribute
map lacking the variable. -/
theorem condition_missing_variable_false_witness :
    lookupS [("other", "1")] "x" = none ∧
      matchesCondition (fun _ _ => 0)
        ⟨"x", "NOT_EQUALS", ["1"]⟩ [("other", "1")] = false :=
  ⟨by decide,
    condition_missing_variable_false (fun _ _ => 0)
      ⟨"x", "NOT_EQUALS", ["1"]⟩ [("other", "1")] (by decide)⟩

/-- The SPLIT semantics exactly as claim C4 words them, including the
`T ∈ [0,100]` requirement on the parsed threshold. -/
def splitClaimMatches (values : List String) (val : String) : Bool :=
  match values with
  | [] => false
  | v0 :: _ =>
    match goAtoi v0 with
    | none => false
    | some t => decide (0 ≤ t) && decide (t ≤ 100) && decide ((getBucket val : Int) < t)

/-- The SPLIT semantics the code actually implements: the threshold is
any `strconv.Atoi`-parsable integer, with no `[0,100]` range check. -/
def splitCodeMatches (values : List String) (val : String) : Bool :=
  match values with
  | [] => false
  | v0 :: _ =>
    match goAtoi v0 with
    | none => false
    | some t => decide ((getBucket val : Int) < t)

/-- Counterexample to claim C4: the threshold `"200"` is outside
`[0,100]`, so the claimed semantics reject the condition, yet
`matchesCondition` accepts it (every bucket is below 200). -/
theorem split_range_check_counterexample :
    matchesCondition (fun _ _ => 0) ⟨"x", "SPLIT", ["200"]⟩ [("x", "u")] = true ∧
      splitClaimMatches ["200"] "u" = false :=
  ⟨by decide, by decide⟩

/-- Claim C4 as amended: a SPLIT condition matches iff `values` is
non-empty, `values[0]` parses as an integer `T` (any integer, no range
restriction), and `bucket(val) < T`; threshold `"0"` never matches and
threshold `"100"` always matches. -/
theorem split_semantics (cmp : String → String → Int) (varName val : String)
    (values rest : List String) (attrs : List (String × String))
    (h : lookupS attrs varName = some val) :
    matchesCondition cmp ⟨varName, "SPLIT", values⟩ attrs = splitCodeMatches values val ∧
      matchesCondition cmp ⟨varName, "SPLIT", "0" :: rest⟩ attrs = false ∧
      matchesCondition cmp ⟨varName, "SPLIT", "100" :: rest⟩ attrs = true := by
  have h0 : goAtoi "0" = some 0 := by decide
  have h100 : goAtoi "100" = some 100 := by decide
  have hgen : ∀ vs : List String,
      matchesCondition cmp ⟨varName, "SPLIT", vs⟩ attrs = splitCodeMatches vs val := by
    intro vs
    unfold matchesCondition splitCodeMatches
    rw [h]
    rfl
  refine ⟨hgen values, ?_, ?_⟩
  · rw [hgen ("0" :: rest)]
    show (match goAtoi "0" with
      | none => false
      | some t => decide ((getBucket val : Int) < t)) = false
    rw [h0]
    exact decide_eq_false (Int.not_lt.mpr (Int.natCast_nonneg (getBucket val)))
  · rw [hgen ("100" :: rest)]
    show (match goAtoi "100" with
      | none => false
      | some t => decide ((getBucket val : Int) < t)) = true
    rw [h100]
    exact decide_eq_true (by exact_mod_cast getBucket_lt_100 val)

/-- Witness for the amended C4 at a concrete context. -/
theorem split_semantics_witness :
    lookupS [("x", "u")] "x" = some "u" ∧
      (matchesCondition (fun _ _ => 0) ⟨"x", "SPLIT", ["200"]⟩ [("x", "u")] =
          splitCodeMatches ["200"] "u" ∧
        matchesCondition (fun _ _ => 0) ⟨"x", "SPLIT", ["0"]⟩ [("x", "u")] = false ∧
        matchesCondition (fun _ _ => 0) ⟨"x", "SPLIT", ["100"]⟩ [("x", "u")] = true) :=
  ⟨by decide, split_semantics (fun _ _ => 0) "x" "u" ["200"] [] [("x", "u")] (by decide)⟩

/-- Counterexample to claim C5: the FNV-1a offset basis `0x811c9dc5`
reduces to 61 mod 100, not 53, so `bucket` of the empty string is 61. -/
theorem bucket_empty_counterexample :
    getBucket "" = 61 ∧ getBucket "" ≠ 53 :=
  ⟨by decide, by decide⟩

/-- Claim C5 as amended: `bucket(k)` is the FNV-1a 32-bit hash of the
UTF-8 bytes of `k` (offset basis `0x811c9dc5`, prime `0x01000193`)
reduced mod 100, hence lies in `[0,99]`; on the empty string it equals
`0x811c9dc5 mod 100 = 61`. -/
theorem bucket_is_fnv1a_mod_100 (k : String) :
    getBucket k = fnv1a32 (stringBytes k) % 100 ∧
      getBucket k < 100 ∧ getBucket "" = 61 := by
  refine ⟨?_, getBucket_lt_100 k, by decide⟩
  unfold getBucket fnv1a32
  rw [fnv_fold_eq (stringBytes k) 0x811c9dc5 (by norm_num) (stringBytes_lt k)]

/-! ## AES key wrap (src/pkg/encryption/crypto.go)

`UnwrapAESKey` drives the AES block cipher through `crypto/aes`.  The
block cipher itself (key schedule, S-boxes) is outside the shallow
embedding; it is abstracted as a pair of functions on pairs of 64-bit
halves (`binary.BigEndian.Uint64` views of the two 8-byte block halves),
with the inversion hypothesis `dec ∘ enc = id` supplied where a claim
needs it.  The 8-byte blocks `A` and `R[i]` of RFC 3394 are `Nat`
values below `2 ^ 64`; a wrapped key, a byte slice whose length is a
multiple of 8 in the source, is the list of its big-endian 64-bit
words, so the source's `len % 8 != 0` check disappears into the
representation and `n = len/8 - 1 < 1` becomes `length < 2`. -/

/-- An AES block operating on a 16-byte block split into two big-endian
64-bit halves. -/
structure BlockCipher where
  enc : Nat × Nat → Nat × Nat
  dec : Nat × Nat → Nat × Nat

/-- The RFC 3394 integrity sentinel `0xA6A6A6A6A6A6A6A6`. -/
def aesKwIV : Nat := 0xA6A6A6A6A6A6A6A6

/-- The (j, i) index pairs of the RFC 3394 wrap loops in wrap order:
j from 0 to 5 outer, i from 1 to n inner; `t = n*j + i`. -/
def kwIndices (n : Nat) : List (Nat × Nat) :=
  (List.range 6).flatMap (fun j => (List.range n).map (fun i => (j, i + 1)))

/-- One wrap round: `B = AES(K, A | R[i]); A = MSB(B) ^ t; R[i] = LSB(B)`. -/
def wrapStep (bc : BlockCipher) (n : Nat) (st : Nat × List Nat)
    (ji : Nat × Nat) : Nat × List Nat :=
  ((bc.enc (st.1, st.2.getD (ji.2 - 1) 0)).1 ^^^ (n * ji.1 + ji.2),
    st.2.set (ji.2 - 1) (bc.enc (st.1, st.2.getD (ji.2 - 1) 0)).2)

/-- One unwrap round (crypto.go lines 68-91): `A = A ^ t;
B = AES_DEC(K, A | R[i]); A = MSB(B); R[i] = LSB(B)`. -/
def unwrapStep (bc : BlockCipher) (n : Nat) (st : Nat × List Nat)
    (ji : Nat × Nat) : Nat × List Nat :=
  ((bc.dec (st.1 ^^^ (n * ji.1 + ji.2), st.2.getD (ji.2 - 1) 0)).1,
    st.2.set (ji.2 - 1) (bc.dec (st.1 ^^^ (n * ji.1 + ji.2), st.2.getD (ji.2 - 1) 0)).2)

/-- Modelled from the spec: RFC 3394 AES key wrap.  The wrap direction
is not part of this repository (only unwrap is shipped); the spec's
round-trip property `unwrap(wrap(k, dek), k) == dek` references it, so
it is transcribed here from RFC 3394 section 2.2.1. -/
def wrapAESKey (bc : BlockCipher) (dek : List Nat) : List Nat :=
  ((kwIndices dek.length).foldl (wrapStep bc dek.length) (aesKwIV, dek)).1 ::
    ((kwIndices dek.length).foldl (wrapStep bc dek.length) (aesKwIV, dek)).2

/-- `UnwrapAESKey` (crypto.go lines 48-99): RFC 3394 unwrap, j from 5
down to 0, i from n down to 1, ending with the sentinel check.  The
source's `n = len/8 - 1 < 1` length guard is `length < 2` on the block
list; `A` is the first block, `R` the rest. -/
def unwrapAESKey (bc : BlockCipher) (wrapped : List Nat) : Except String (List Nat) :=
  if wrapped.length < 2 then .error "wrapped key too short"
  else if (((kwIndices wrapped.tail.length).reverse).foldl
        (unwrapStep bc wrapped.tail.length) (wrapped.headD 0, wrapped.tail)).1
      = aesKwIV then
    .ok (((kwIndices wrapped.tail.length).reverse).foldl
      (unwrapStep bc wrapped.tail.length) (wrapped.headD 0, wrapped.tail)).2
  else .error "integrity check failed"

theorem getD_set_self (l : List Nat) (k v : Nat) (h : k < l.length) :
    (l.set k v).getD k 0 = v := by
  induction l generalizing k with
  | nil => simp at h
  | cons x xs ih =>
    cases k with
    | zero => rfl
    | succ k => exact ih k (by simpa using h)

theorem set_getD_self (l : List Nat) (k : Nat) (h : k < l.length) :
    l.set k (l.getD k 0) = l := by
  induction l generalizing k with
  | nil => simp at h
  | cons x xs ih =>
    cases k with
    | zero => rfl
    | succ k => simpa [List.set] using ih k (by simpa using h)

theorem unwrap_wrap_step (bc : BlockCipher) (hinv : ∀ p, bc.dec (bc.enc p) = p)
    (n : Nat) (ji : Nat × Nat) (hi1 : 1 ≤ ji.2) (hin : ji.2 ≤ n)
    (st : Nat × List Nat) (hlen : st.2.length = n) :
    unwrapStep bc n (wrapStep bc n st ji) ji = st := by
  obtain ⟨a, r⟩ := st
  obtain ⟨j, i⟩ := ji
  simp only at hi1 hin hlen
  have hk : i - 1 < r.length := by omega
  have hxor : ∀ x t : Nat, (x ^^^ t) ^^^ t = x := by
    intro x t
    rw [Nat.xor_assoc, Nat.xor_self, Nat.xor_zero]
  simp only [unwrapStep, wrapStep, hxor, getD_set_self _ _ _ hk, hinv,
    List.set_set, set_getD_self _ _ hk]

theorem wrap_foldl_length (bc : BlockCipher) (n : Nat) (L : List (Nat × Nat)) :
    ∀ st : Nat × List Nat, st.2.length = n →
      ((L.foldl (wrapStep bc n) st).2).length = n := by
  induction L with
  | nil => intro st h; exact h
  | cons x xs ih =>
    intro st h
    exact ih (wrapStep bc n st x) (by simpa [wrapStep] using h)

theorem unwrap_wrap_foldl (bc : BlockCipher) (hinv : ∀ p, bc.dec (bc.enc p) = p)
    (n : Nat) (L : List (Nat × Nat)) (hmem : ∀ ji ∈ L, 1 ≤ ji.2 ∧ ji.2 ≤ n) :
    ∀ st : Nat × List Nat, st.2.length = n →
      (L.reverse).foldl (unwrapStep bc n) (L.foldl (wrapStep bc n) st) = st := by
  induction L with
  | nil => intro st _; rfl
  | cons x xs ih =>
    intro st hlen
    have hx := hmem x (List.mem_cons_self x xs)
    have hlen' : (wrapStep bc n st x).2.length = n := by simpa [wrapStep] using hlen
    simp only [List.reverse_cons, List.foldl_cons, List.foldl_append, List.foldl_nil]
    rw [ih (fun ji hji => hmem ji (List.mem_cons_of_mem x hji)) (wrapStep bc n st x) hlen']
    exact unwrap_wrap_step bc hinv n x hx.1 hx.2 st hlen

theorem mem_kwIndices (n : Nat) (ji : Nat × Nat) (h : ji ∈ kwIndices n) :
    1 ≤ ji.2 ∧ ji.2 ≤ n := by
  simp only [kwIndices, List.mem_flatMap, List.mem_map, List.mem_range] at h
  obtain ⟨j, _, i, hi, rfl⟩ := h
  exact ⟨Nat.succ_le_succ (Nat.zero_le i), hi⟩

/-- Claim C7: AES key unwrap is the exact inverse of RFC 3394 wrap on
the same key-encryption-key (block cipher abstracted with its inversion
law), for every data key of at least one 64-bit block; and whenever the
recovered integrity register differs from `0xA6A6A6A6A6A6A6A6`, unwrap
fails with the integrity-check error instead of returning a key. -/
theorem unwrapAESKey_inverts_wrap (bc : BlockCipher)
    (hinv : ∀ p, bc.dec (bc.enc p) = p) (dek : List Nat) (hlen : 1 ≤ dek.length) :
    unwrapAESKey bc (wrapAESKey bc dek) = .ok dek ∧
      ∀ a0 r0, 1 ≤ r0.length →
        (((kwIndices r0.length).reverse).foldl (unwrapStep bc r0.length) (a0, r0)).1
            ≠ aesKwIV →
        unwrapAESKey bc (a0 :: r0) = .error "integrity check failed" := by
  constructor
  · have hfl : ((kwIndices dek.length).foldl (wrapStep bc dek.length)
        (aesKwIV, dek)).2.length = dek.length :=
      wrap_foldl_length bc dek.length (kwIndices dek.length) (aesKwIV, dek) rfl
    unfold wrapAESKey unwrapAESKey
    rw [if_neg (by simp only [List.length_cons]; omega)]
    simp only [List.headD_cons, List.tail_cons]
    rw [hfl, Prod.mk.eta,
      unwrap_wrap_foldl bc hinv dek.length (kwIndices dek.length)
        (mem_kwIndices dek.length) (aesKwIV, dek) rfl]
    rw [if_pos rfl]
  · intro a0 r0 h1 hne
    unfold unwrapAESKey
    rw [if_neg (by simp only [List.length_cons]; omega)]
    simp only [List.headD_cons, List.tail_cons]
    rw [if_neg hne]

/-- Witness for C7 with the identity block cipher and a two-block data
key, plus a concrete sentinel-mismatch input. -/
theorem unwrapAESKey_inverts_wrap_witness :
    unwrapAESKey ⟨fun p => p, fun p => p⟩
        (wrapAESKey ⟨fun p => p, fun p => p⟩ [1, 2]) = .ok [1, 2] ∧
      unwrapAESKey ⟨fun p => p, fun p => p⟩ [0, 5] = .error "integrity check failed" :=
  ⟨(unwrapAESKey_inverts_wrap ⟨fun p => p, fun p => p⟩ (fun p => rfl) [1, 2]
      (by decide)).1,
    (unwrapAESKey_inverts_wrap ⟨fun p => p, fun p => p⟩ (fun p => rfl) [1, 2]
      (by decide)).2 0 [5] (by decide) (by decide)⟩

/-! ## Encryption service (src/unnamed/part_002)

`Service.getNSK` and `Service.Decrypt`.  The collaborators at the edge
of the modelled core are oracles: the transport's `GetNamespaceKey`
reply is passed in as an `Except`, base64 decoding and RSA-OAEP
decryption are abstract functions, the AES cipher for the unwrap is as
in the key-wrap section, and AES-GCM is an abstract function of
payload and DEK.  The cache-store side effect on success (part_002
lines 118-120) touches later calls only and is outside the returned
value. -/

/-- First-match lookup in the NSK cache (`sync.Map.Load`). -/
def lookupBytes : List (String × List Nat) → String → Option (List Nat)
  | [], _ => none
  | (k, v) :: rest, key => if k = key then some v else lookupBytes rest key

/-- The failure cases of `Service.getNSK`, one per `fmt.Errorf` site. -/
inductive NSKError
  | transportFailed (msg : String)
  | ambiguousKeys (ns : String) (count : Nat)
  | noKeysFound (ns : String)
  | noMatchingKey (ns : String) (keyId : String)
  | decodeFailed
  | decryptFailed (msg : String)
deriving Repr, DecidableEq

/-- The tail of `Service.getNSK` (part_002 lines 108-122): base64
decode the selected key's wrapped key, then RSA-OAEP decrypt it. -/
def useNamespaceKey (decodeB64 : String → Option (List Nat))
    (rsaDecrypt : List Nat → Except String (List Nat))
    (k : NamespaceKey) : Except NSKError (List Nat) :=
  match decodeB64 k.wrappedKey with
  | none => .error .decodeFailed
  | some bytes =>
    match rsaDecrypt bytes with
    | .error e => .error (.decryptFailed e)
    | .ok nsk => .ok nsk

/-- `Service.getNSK` (part_002 lines 68-122): cache hit for a non-empty
keyId, else select among the transport's keys — first key matching the
fig's keyId (the empty keyId matching a key with empty keyId), falling
back for an absent keyId to the single returned key, the no-keys
failure, or the ambiguity failure. -/
def getNSK (cache : List (String × List Nat))
    (nsKeysResult : Except String (List NamespaceKey))
    (decodeB64 : String → Option (List Nat))
    (rsaDecrypt : List Nat → Except String (List Nat))
    (ns keyID : String) : Except NSKError (List Nat) :=
  match (if keyID ≠ "" then lookupBytes cache keyID else none) with
  | some cached => .ok cached
  | none =>
    match nsKeysResult with
    | .error e => .error (.transportFailed e)
    | .ok nsKeys =>
      match nsKeys.find? (fun k =>
          (decide (keyID = "") && decide (k.keyId = "")) ||
            (decide (keyID ≠ "") && decide (k.keyId = keyID))) with
      | some matchingKey => useNamespaceKey decodeB64 rsaDecrypt matchingKey
      | none =>
        if keyID = "" then
          match nsKeys with
          | [k] => useNamespaceKey decodeB64 rsaDecrypt k
          | [] => .error (.noKeysFound ns)
          | _ => .error (.ambiguousKeys ns nsKeys.length)
        else .error (.noMatchingKey ns keyID)

/-- The failure cases of `Service.Decrypt`, one per `fmt.Errorf` site. -/
inductive DecryptError
  | getNSKFailed (e : NSKError)
  | missingWrappedDek
  | unwrapFailed (msg : String)
  | gcmFailed (msg : String)
deriving Repr, DecidableEq

/-- `Service.Decrypt` (part_002 lines 32-66): pass an unencrypted fig's
payload through; otherwise resolve the NSK (the fig's absent keyId read
as `""`), require a wrapped DEK, AES-KW-unwrap it, and AES-GCM-decrypt
the payload. -/
def serviceDecrypt (aes : List Nat → BlockCipher)
    (gcm : List Nat → List Nat → Except String (List Nat))
    (cache : List (String × List Nat))
    (nsKeysResult : Except String (List NamespaceKey))
    (decodeB64 : String → Option (List Nat))
    (rsaDecrypt : List Nat → Except String (List Nat))
    (ns : String) (fig : Fig) : Except DecryptError (List Nat) :=
  if !fig.isEncrypted then .ok fig.payload
  else
    match getNSK cache nsKeysResult decodeB64 rsaDecrypt ns (fig.keyId.getD "") with
    | .error e => .error (.getNSKFailed e)
    | .ok nsk =>
      if fig.wrappedDek.length = 0 then .error .missingWrappedDek
      else
        match unwrapAESKey (aes nsk) fig.wrappedDek with
        | .error e => .error (.unwrapFailed e)
        | .ok dek =>
          match gcm fig.payload dek with
          | .error e => .error (.gcmFailed e)
          | .ok payload => .ok payload

theorem find?_append_of_forall_false {α : Type} (p : α → Bool) (l1 l2 : List α)
    (h : ∀ x ∈ l1, p x = false) : (l1 ++ l2).find? p = l2.find? p := by
  induction l1 with
  | nil => rfl
  | cons a l ih =>
    rw [List.cons_append, List.find?_cons_of_neg _ (by simp [h a (List.mem_cons_self a l)])]
    exact ih (fun x hx => h x (List.mem_cons_of_mem a hx))

/-- Evaluation of `getNSK` for an absent (empty) fig keyId: the cache
is skipped and the selection predicate degenerates to "has empty
keyId". -/
theorem getNSK_empty_keyID (cache : List (String × List Nat))
    (decodeB64 : String → Option (List Nat))
    (rsaDecrypt : List Nat → Except String (List Nat))
    (ns : String) (nsKeys : List NamespaceKey) :
    getNSK cache (.ok nsKeys) decodeB64 rsaDecrypt ns "" =
      match nsKeys.find? (fun k => decide (k.keyId = "")) with
      | some matchingKey => useNamespaceKey decodeB64 rsaDecrypt matchingKey
      | none =>
        match nsKeys with
        | [k] => useNamespaceKey decodeB64 rsaDecrypt k
        | [] => .error (.noKeysFound ns)
        | _ => .error (.ambiguousKeys ns nsKeys.length) := by
  unfold getNSK
  rw [show (fun (k : NamespaceKey) =>
      (decide (("" : String) = "") && decide (k.keyId = "")) ||
        (decide (("" : String) ≠ "") && decide (k.keyId = ""))) =
    fun k => decide (k.keyId = "") from funext fun k => by simp]
  rfl

/-- Counterexample to claim C6: the transport returns two keys, the fig
has no keyId, and the first returned key has an empty keyId — `getNSK`
silently uses that key instead of failing with the ambiguity error. -/
theorem getNSK_ambiguity_counterexample :
    getNSK [] (.ok [⟨"w1", ""⟩, ⟨"w2", "k2"⟩]) (fun _ => some [1])
      (fun b => .ok b) "ns" "" = .ok [1] := by rfl

/-- Claim C6 as amended: with an absent fig keyId (and regardless of the
cache, which is not consulted), zero returned keys fail with the
key-not-found error; exactly one returned key is used; multiple
returned keys fail with the ambiguous-key error unless one of them has
an empty keyId, in which case the first such key — at whatever position
it sits — is silently used. -/
theorem getNSK_absent_keyId_selection (cache : List (String × List Nat))
    (decodeB64 : String → Option (List Nat))
    (rsaDecrypt : List Nat → Except String (List Nat)) (ns : String) :
    (getNSK cache (.ok []) decodeB64 rsaDecrypt ns "" = .error (.noKeysFound ns)) ∧
    (∀ k bytes nsk, decodeB64 k.wrappedKey = some bytes → rsaDecrypt bytes = .ok nsk →
      getNSK cache (.ok [k]) decodeB64 rsaDecrypt ns "" = .ok nsk) ∧
    (∀ keys, 2 ≤ keys.length → (∀ k ∈ keys, k.keyId ≠ "") →
      getNSK cache (.ok keys) decodeB64 rsaDecrypt ns "" =
        .error (.ambiguousKeys ns keys.length)) ∧
    (∀ ks1 k ks2 bytes nsk, (∀ k1 ∈ ks1, k1.keyId ≠ "") → k.keyId = "" →
      decodeB64 k.wrappedKey = some bytes → rsaDecrypt bytes = .ok nsk →
      getNSK cache (.ok (ks1 ++ k :: ks2)) decodeB64 rsaDecrypt ns "" = .ok nsk) := by
  refine ⟨rfl, ?_, ?_, ?_⟩
  · intro k bytes nsk hdec hrsa
    by_cases hk : k.keyId = "" <;>
      simp [getNSK, useNamespaceKey, List.find?, hk, hdec, hrsa]
  · intro keys h2 hne
    cases keys with
    | nil => simp at h2
    | cons a tail =>
      cases tail with
      | nil => simp only [List.length_cons, List.length_nil] at h2; omega
      | cons b t =>
        have hnone : (a :: b :: t).find? (fun k => decide (k.keyId = "")) = none :=
          List.find?_eq_none.mpr (fun k hk => by simp [hne k hk])
        rw [getNSK_empty_keyID, hnone]
  · intro ks1 k ks2 bytes nsk hpre hk hdec hrsa
    have hfind : (ks1 ++ k :: ks2).find? (fun x => decide (x.keyId = "")) = some k := by
      rw [find?_append_of_forall_false _ ks1 (k :: ks2)
        (fun x hx => by simp [hpre x hx])]
      simp [List.find?, hk]
    rw [getNSK_empty_keyID, hfind]
    simp [useNamespaceKey, hdec, hrsa]

/-- Witness for the amended C6: a single returned key is used, and the
first empty-keyId key is silently used from a non-head position behind
a named key, at a concrete decode/decrypt pipeline. -/
theorem getNSK_absent_keyId_selection_witness :
    getNSK [] (.ok [⟨"w", ""⟩]) (fun _ => some [9]) (fun b => .ok b) "n" "" =
        .ok [9] ∧
      getNSK [] (.ok [⟨"w1", "k1"⟩, ⟨"w2", ""⟩]) (fun _ => some [9])
        (fun b => .ok b) "n" "" = .ok [9] :=
  ⟨(getNSK_absent_keyId_selection [] (fun _ => some [9]) (fun b => .ok b)
      "n").2.1 ⟨"w", ""⟩ [9] [9] rfl rfl,
    (getNSK_absent_keyId_selection [] (fun _ => some [9]) (fun b => .ok b)
      "n").2.2.2 [⟨"w1", "k1"⟩] ⟨"w2", ""⟩ [] [9] [9] (by decide) rfl rfl rfl⟩

/-- Claim C10: decrypting a fig whose `IsEncrypted` flag is false
returns the payload unchanged with no error, for every transport reply,
key cache, decode/decrypt pipeline and cipher — so none of them can
influence the result and none is consulted. -/
theorem decrypt_unencrypted_passthrough (aes : List Nat → BlockCipher)
    (gcm : List Nat → List Nat → Except String (List Nat))
    (cache : List (String × List Nat))
    (nsKeysResult : Except String (List NamespaceKey))
    (decodeB64 : String → Option (List Nat))
    (rsaDecrypt : List Nat → Except String (List Nat))
    (ns : String) (fig : Fig) (h : fig.isEncrypted = false) :
    serviceDecrypt aes gcm cache nsKeysResult decodeB64 rsaDecrypt ns fig =
      .ok fig.payload := by
  unfold serviceDecrypt
  rw [h]
  rfl

/-- Witness for C10: an unencrypted fig passes through even when every
collaborator fails. -/
theorem decrypt_unencrypted_passthrough_witness :
    serviceDecrypt (fun _ => ⟨fun p => p, fun p => p⟩) (fun _ _ => .error "gcm")
      [] (.error "transport down") (fun _ => none) (fun _ => .error "rsa")
      "n" ⟨"f", "v1", [1, 2, 3], false, [], none⟩ = .ok [1, 2, 3] :=
  decrypt_unencrypted_passthrough (fun _ => ⟨fun p => p, fun p => p⟩)
    (fun _ _ => .error "gcm") [] (.error "transport down") (fun _ => none)
    (fun _ => .error "rsa") "n" ⟨"f", "v1", [1, 2, 3], false, [], none⟩ rfl

/-! ## Bootstrap strategies (src/pkg/bootstrap/vault.go,
src/pkg/bootstrap/hybrid.go, src/unnamed/part_004)

`vault.go` and `part_004` each hold two variants of the same strategy,
separated in the sources; the `V2` definitions below are the second
variants.  `BackupService.LoadBackup` and the strategies/transport a
`HybridStrategy` calls are passed in as oracle values and functions. -/

/-- A bootstrap outcome (bootstrap.Result): families plus per-namespace
cursors. -/
structure BootstrapResult where
  figFamilies : List FigFamily
  cursors : List (String × String)
deriving Repr, DecidableEq

/-- The decrypted Vault backup payload (VaultPayload). -/
structure VaultPayload where
  tenantId : String
  generatedAt : String
  syncToken : String
  items : List FigFamily
deriving Repr, DecidableEq

/-- `UpdateFetchRequest` (model): namespace, cursor, environment id. -/
structure UpdateFetchRequest where
  nspace : String
  cursor : String
  environmentID : String
deriving Repr, DecidableEq

/-- `UpdateFetchResponse` (model). -/
structure UpdateFetchResponse where
  figFamilies : List FigFamily
  cursor : String
deriving Repr, DecidableEq

/-- The cursor map built by `VaultStrategy.Bootstrap` (vault.go lines
27-39, identical in both variants): the sync token for every requested
namespace when it is non-empty, then for every item namespace not yet
present. -/
def vaultCursors (payload : VaultPayload) (namespaces : List String) :
    List (String × String) :=
  payload.items.foldl
    (fun m item =>
      if (lookupS m item.definition.nspace).isSome then m
      else mapInsert m item.definition.nspace payload.syncToken)
    (if payload.syncToken ≠ "" then
      namespaces.foldl (fun m ns => mapInsert m ns payload.syncToken) []
    else [])

/-- `VaultStrategy.Bootstrap`, first variant (vault.go lines 21-58):
families filtered to the requested namespaces. -/
def vaultBootstrap (loaded : Except String VaultPayload)
    (namespaces : List String) : Except String BootstrapResult :=
  match loaded with
  | .error e => .error e
  | .ok payload =>
    .ok ⟨payload.items.filter (fun item => namespaces.contains item.definition.nspace),
      vaultCursors payload namespaces⟩

/-- `VaultStrategy.Bootstrap`, second variant (vault.go lines 78-102):
same cursors, but all payload items returned unfiltered. -/
def vaultBootstrapV2 (loaded : Except String VaultPayload)
    (namespaces : List String) : Except String BootstrapResult :=
  match loaded with
  | .error e => .error e
  | .ok payload => .ok ⟨payload.items, vaultCursors payload namespaces⟩

theorem lookupS_foldl_mapInsert (tok : String) (namespaces : List String) :
    ∀ (m0 : List (String × String)) (x : String),
      lookupS (namespaces.foldl (fun m ns => mapInsert m ns tok) m0) x =
        if x ∈ namespaces then some tok else lookupS m0 x := by
  induction namespaces with
  | nil => intro m0 x; simp
  | cons n rest ih =>
    intro m0 x
    rw [List.foldl_cons, ih (mapInsert m0 n tok) x, lookupS_mapInsert]
    by_cases hr : x ∈ rest
    · simp [hr]
    · by_cases hn : x = n <;> simp [hr, hn]

theorem lookupS_itemsFold (tok : String) (items : List FigFamily) :
    ∀ (m0 : List (String × String)) (x : String),
      lookupS (items.foldl
          (fun m item =>
            if (lookupS m item.definition.nspace).isSome then m
            else mapInsert m item.definition.nspace tok) m0) x =
        if (lookupS m0 x).isSome then lookupS m0 x
        else if x ∈ items.map (fun it => it.definition.nspace) then some tok
        else none := by
  induction items with
  | nil =>
    intro m0 x
    cases h : lookupS m0 x <;> simp [h]
  | cons it rest ih =>
    intro m0 x
    rw [List.foldl_cons]
    by_cases hit : (lookupS m0 it.definition.nspace).isSome
    · rw [if_pos hit, ih m0 x]
      by_cases hx : x = it.definition.nspace
      · subst hx
        simp [hit]
      · by_cases hm : (lookupS m0 x).isSome <;> simp [hm, hx]
    · rw [if_neg hit, ih (mapInsert m0 it.definition.nspace tok) x]
      by_cases hx : x = it.definition.nspace
      · subst hx
        rw [Option.not_isSome_iff_eq_none] at hit
        simp [lookupS_mapInsert, hit]
      · simp [lookupS_mapInsert, hx]

/-- Full characterisation of the vault cursor map. -/
theorem lookupS_vaultCursors (p : VaultPayload) (namespaces : List String)
    (x : String) :
    lookupS (vaultCursors p namespaces) x =
      if (p.syncToken ≠ "" ∧ x ∈ namespaces) ∨
          x ∈ p.items.map (fun it => it.definition.nspace) then some p.syncToken
      else none := by
  unfold vaultCursors
  rw [lookupS_itemsFold]
  by_cases ht : p.syncToken = ""
  · rw [show (if p.syncToken ≠ "" then
        namespaces.foldl (fun m ns => mapInsert m ns p.syncToken) [] else []) = []
      from if_neg (by simp [ht])]
    by_cases hi : x ∈ p.items.map (fun it => it.definition.nspace) <;>
      simp [lookupS, hi, ht]
  · rw [show (if p.syncToken ≠ "" then
        namespaces.foldl (fun m ns => mapInsert m ns p.syncToken) [] else []) =
          namespaces.foldl (fun m ns => mapInsert m ns p.syncToken) []
      from if_pos (by simp [ht])]
    rw [lookupS_foldl_mapInsert]
    by_cases hn : x ∈ namespaces
    · simp [hn, ht]
    · by_cases hi : x ∈ p.items.map (fun it => it.definition.nspace) <;>
        simp [lookupS, hi, ht, hn]

/-- A minimal FigFamily literal for concrete inputs. -/
def mkFamily (ns key : String) : FigFamily :=
  ⟨⟨ns, key, "", "", "", 0, 0⟩, [], [], none⟩

/-- Counterexample to claim C8: with an empty sync token, a requested
namespace with no items receives no cursor at all (the map lacks the
key, which downstream `HybridStrategy` reads as "missing"), and the
second variant returns an item whose namespace was never requested. -/
theorem vaultBootstrap_counterexample :
    vaultBootstrap (.ok ⟨"t", "g", "", [mkFamily "b" "k"]⟩) ["a"] =
        .ok ⟨[], [("b", "")]⟩ ∧
      lookupS [("b", "")] "a" = none ∧
      vaultBootstrapV2 (.ok ⟨"t", "g", "", [mkFamily "b" "k"]⟩) ["a"] =
        .ok ⟨[mkFamily "b" "k"], [("b", "")]⟩ ∧
      "b" ∉ (["a"] : List String) := by
  refine ⟨rfl, by decide, rfl, by decide⟩

/-- Claim C8 as amended: when `payload.syncToken` is non-empty, the
cursor map binds exactly the requested namespaces and the namespaces of
`payload.items`, all to the sync token (with an empty token only item
namespaces are bound, to the empty string); the first variant returns
exactly the payload items whose namespace is requested, while the
second variant returns every payload item. -/
theorem vaultBootstrap_semantics (p : VaultPayload) (namespaces : List String)
    (h : p.syncToken ≠ "") :
    (∀ ns, lookupS (vaultCursors p namespaces) ns =
        if ns ∈ namespaces ∨ ns ∈ p.items.map (fun it => it.definition.nspace)
        then some p.syncToken else none) ∧
      (∀ r, vaultBootstrap (.ok p) namespaces = .ok r →
        (∀ fam, fam ∈ r.figFamilies ↔
          fam ∈ p.items ∧ fam.definition.nspace ∈ namespaces) ∧
        r.cursors = vaultCursors p namespaces) ∧
      (∀ r, vaultBootstrapV2 (.ok p) namespaces = .ok r →
        r.figFamilies = p.items ∧ r.cursors = vaultCursors p namespaces) := by
  refine ⟨?_, ?_, ?_⟩
  · intro ns
    rw [lookupS_vaultCursors]
    by_cases hn : ns ∈ namespaces <;>
      by_cases hi : ns ∈ p.items.map (fun it => it.definition.nspace) <;>
      simp [hn, hi, h]
  · intro r hr
    cases hr
    constructor
    · intro fam
      simp [List.mem_filter, List.elem_iff]
    · rfl
  · intro r hr
    cases hr
    exact ⟨rfl, rfl⟩

/-- Witness for the amended C8 at a concrete payload. -/
theorem vaultBootstrap_semantics_witness :
    lookupS (vaultCursors ⟨"t", "g", "tok", [mkFamily "b" "k"]⟩ ["a"]) "a" =
      some "tok" :=
  ((vaultBootstrap_semantics ⟨"t", "g", "tok", [mkFamily "b" "k"]⟩ ["a"]
    (by decide)).1 "a").trans (by decide)

/-! ### HybridStrategy (src/pkg/bootstrap/hybrid.go and the
src/unnamed/part_004 variant) -/

/-- `maps.Copy(dst, src)`: every binding of `src` written over `dst`. -/
def copyCursors (dst src : List (String × String)) : List (String × String) :=
  src.foldl (fun m kv => mapInsert m kv.1 kv.2) dst

/-- Step 1 of both hybrid variants: a vault error is treated as an
empty result. -/
def hybridVR (vaultRes : Except String BootstrapResult) : BootstrapResult :=
  match vaultRes with
  | .error _ => ⟨[], []⟩
  | .ok r => r

/-- Step 2: the requested namespaces with no vault cursor. -/
def hybridMissing (vr : BootstrapResult) (namespaces : List String) : List String :=
  namespaces.filter (fun ns => (lookupS vr.cursors ns).isNone)

/-- Step 3 of `HybridStrategy.Bootstrap` (hybrid.go lines 63-79): fetch
the missing namespaces from the server, a server error leaving the
vault data as is. -/
def hybridAfterServer (serverBootstrap : List String → Except String BootstrapResult)
    (vr : BootstrapResult) (missing : List String) :
    List FigFamily × List (String × String) :=
  if missing.length > 0 then
    match serverBootstrap missing with
    | .error _ => (vr.figFamilies, vr.cursors)
    | .ok sr => (vr.figFamilies ++ sr.figFamilies, copyCursors vr.cursors sr.cursors)
  else (vr.figFamilies, vr.cursors)

/-- One iteration of the catch-up loop of `HybridStrategy.Bootstrap`
(hybrid.go lines 82-119): skip a namespace without a cursor or fresh
from the server, otherwise `FetchUpdate` with the vault cursor, a fetch
error skipping the namespace. -/
def hybridCatchupStep
    (fetchUpdate : UpdateFetchRequest → Except String UpdateFetchResponse)
    (envId : String) (missing : List String) (ns : String)
    (st : List FigFamily × List (String × String)) :
    List FigFamily × List (String × String) :=
  match lookupS st.2 ns with
  | none => st
  | some cursor =>
    if missing.contains ns then st
    else
      match fetchUpdate ⟨ns, cursor, envId⟩ with
      | .error _ => st
      | .ok resp =>
        (st.1 ++ (if resp.figFamilies.length > 0 then resp.figFamilies else []),
         if resp.cursor ≠ "" then mapInsert st.2 ns resp.cursor else st.2)

/-- Step 4 of `HybridStrategy.Bootstrap` (hybrid.go lines 82-120): the
catch-up loop over the requested namespaces. -/
def hybridCatchup (fetchUpdate : UpdateFetchRequest → Except String UpdateFetchResponse)
    (envId : String) (missing : List String) :
    List String → List FigFamily × List (String × String) →
      List FigFamily × List (String × String)
  | [], st => st
  | ns :: rest, st =>
    hybridCatchup fetchUpdate envId missing rest
      (hybridCatchupStep fetchUpdate envId missing ns st)

/-- `HybridStrategy.Bootstrap` (hybrid.go lines 30-126): vault, then
server for missing namespaces, then per-namespace catch-up; never an
error. -/
def hybridBootstrap (vaultRes : Except String BootstrapResult)
    (serverBootstrap : List String → Except String BootstrapResult)
    (fetchUpdate : UpdateFetchRequest → Except String UpdateFetchResponse)
    (envId : String) (namespaces : List String) : Except String BootstrapResult :=
  .ok ⟨(hybridCatchup fetchUpdate envId
        (hybridMissing (hybridVR vaultRes) namespaces) namespaces
        (hybridAfterServer serverBootstrap (hybridVR vaultRes)
          (hybridMissing (hybridVR vaultRes) namespaces))).1,
      (hybridCatchup fetchUpdate envId
        (hybridMissing (hybridVR vaultRes) namespaces) namespaces
        (hybridAfterServer serverBootstrap (hybridVR vaultRes)
          (hybridMissing (hybridVR vaultRes) namespaces))).2⟩

/-- Step 3 of the part_004 variant (lines 65-77): a server error aborts
the bootstrap with a wrapped error. -/
def hybridAfterServerV2 (serverBootstrap : List String → Except String BootstrapResult)
    (vr : BootstrapResult) (missing : List String) :
    Except String (List FigFamily × List (String × String)) :=
  if missing.length > 0 then
    match serverBootstrap missing with
    | .error e => .error ("failed to fetch missing namespaces from server: " ++ e)
    | .ok sr => .ok (vr.figFamilies ++ sr.figFamilies, copyCursors vr.cursors sr.cursors)
  else .ok (vr.figFamilies, vr.cursors)

/-- Step 4 of the part_004 variant (lines 87-118): a `FetchUpdate`
error aborts the bootstrap with a wrapped error. -/
def hybridCatchupV2 (fetchUpdate : UpdateFetchRequest → Except String UpdateFetchResponse)
    (envId : String) (missing : List String) :
    List String → List FigFamily × List (String × String) →
      Except String (List FigFamily × List (String × String))
  | [], st => .ok st
  | ns :: rest, st =>
    if missing.contains ns then hybridCatchupV2 fetchUpdate envId missing rest st
    else
      match lookupS st.2 ns with
      | none => hybridCatchupV2 fetchUpdate envId missing rest st
      | some cursor =>
        match fetchUpdate ⟨ns, cursor, envId⟩ with
        | .error e => .error ("failed to catch up for " ++ ns ++ ": " ++ e)
        | .ok resp =>
          hybridCatchupV2 fetchUpdate envId missing rest
            (st.1 ++ (if resp.figFamilies.length > 0 then resp.figFamilies else []),
             if resp.cursor ≠ "" then mapInsert st.2 ns resp.cursor else st.2)

/-- `HybridStrategy.Bootstrap`, part_004 variant (lines 32-124). -/
def hybridBootstrapV2 (vaultRes : Except String BootstrapResult)
    (serverBootstrap : List String → Except String BootstrapResult)
    (fetchUpdate : UpdateFetchRequest → Except String UpdateFetchResponse)
    (envId : String) (namespaces : List String) : Except String BootstrapResult :=
  match hybridAfterServerV2 serverBootstrap (hybridVR vaultRes)
      (hybridMissing (hybridVR vaultRes) namespaces) with
  | .error e => .error e
  | .ok st =>
    match hybridCatchupV2 fetchUpdate envId
        (hybridMissing (hybridVR vaultRes) namespaces) namespaces st with
    | .error e => .error e
    | .ok final => .ok ⟨final.1, final.2⟩

theorem hybridCatchupStep_all_errors
    (fetchUpdate : UpdateFetchRequest → Except String UpdateFetchResponse)
    (hf : ∀ req, ∃ e, fetchUpdate req = .error e) (envId : String)
    (missing : List String) (ns : String)
    (st : List FigFamily × List (String × String)) :
    hybridCatchupStep fetchUpdate envId missing ns st = st := by
  unfold hybridCatchupStep
  cases hl : lookupS st.2 ns with
  | none => rfl
  | some cursor =>
    by_cases hm : ns ∈ missing
    · simp [hm]
    · obtain ⟨e, he⟩ := hf ⟨ns, cursor, envId⟩
      simp [hm, he]

theorem hybridCatchup_all_errors
    (fetchUpdate : UpdateFetchRequest → Except String UpdateFetchResponse)
    (hf : ∀ req, ∃ e, fetchUpdate req = .error e) (envId : String)
    (missing : List String) :
    ∀ (nss : List String) (st : List FigFamily × List (String × String)),
      hybridCatchup fetchUpdate envId missing nss st = st := by
  intro nss
  induction nss with
  | nil => intro st; rfl
  | cons ns rest ih =>
    intro st
    unfold hybridCatchup
    rw [hybridCatchupStep_all_errors fetchUpdate hf envId missing ns st]
    exact ih st

/-- Counterexample to claim C9: the part_004 variant of
`HybridStrategy.Bootstrap` aborts with an error when the server
bootstrap for the missing namespaces fails, instead of proceeding with
the vault data. -/
theorem hybridBootstrapV2_counterexample :
    hybridBootstrapV2 (.ok ⟨[], []⟩) (fun _ => .error "boom")
        (fun _ => .error "f") "env" ["a"] =
      .error "failed to fetch missing namespaces from server: boom" := by rfl

/-- Claim C9 as amended, for the primary `HybridStrategy.Bootstrap` of
pkg/bootstrap/hybrid.go: it never returns an error for any input, and
when the server bootstrap fails and every per-namespace catch-up
`FetchUpdate` fails, it still returns exactly the vault families and
cursors.  (The duplicated part_004 variant instead aborts on those
errors, as the counterexample shows.) -/
theorem hybridBootstrap_resilient :
    (∀ vaultRes serverBootstrap fetchUpdate (envId : String)
        (namespaces : List String),
      ∃ r, hybridBootstrap vaultRes serverBootstrap fetchUpdate envId namespaces =
        .ok r) ∧
    (∀ (vr : BootstrapResult) serverBootstrap fetchUpdate (envId : String)
        (namespaces : List String),
      (∀ l, ∃ e, serverBootstrap l = Except.error e) →
      (∀ req, ∃ e, fetchUpdate req = Except.error e) →
      hybridBootstrap (.ok vr) serverBootstrap fetchUpdate envId namespaces =
        .ok vr) := by
  constructor
  · intro vaultRes serverBootstrap fetchUpdate envId namespaces
    exact ⟨_, rfl⟩
  · intro vr serverBootstrap fetchUpdate envId namespaces hs hf
    obtain ⟨e, he⟩ := hs (hybridMissing vr namespaces)
    have hvr : hybridVR (.ok vr) = vr := rfl
    have hsrv : hybridAfterServer serverBootstrap vr (hybridMissing vr namespaces) =
        (vr.figFamilies, vr.cursors) := by
      unfold hybridAfterServer
      rw [he]
      by_cases hm : (hybridMissing vr namespaces).length > 0 <;> simp [hm]
    unfold hybridBootstrap
    rw [hvr, hsrv, hybridCatchup_all_errors fetchUpdate hf envId
      (hybridMissing vr namespaces) namespaces (vr.figFamilies, vr.cursors)]

/-- Witness for the amended C9: concrete vault data survive a failing
server and failing catch-ups. -/
theorem hybridBootstrap_resilient_witness :
    hybridBootstrap (.ok ⟨[mkFamily "a" "k"], [("a", "c1")]⟩)
        (fun _ => .error "server down") (fun _ => .error "poll failed")
        "env" ["a", "b"] =
      .ok ⟨[mkFamily "a" "k"], [("a", "c1")]⟩ :=
  hybridBootstrap_resilient.2 ⟨[mkFamily "a" "k"], [("a", "c1")]⟩
    (fun _ => .error "server down") (fun _ => .error "poll failed") "env"
    ["a", "b"] (fun _ => ⟨"server down", rfl⟩) (fun _ => ⟨"poll failed", rfl⟩)

/-! ## Client facade read paths (src/pkg/client/client.go, encrypted
variant)

`Client.GetFig` from the resolved fig onward (lines 427-455) and the
listener wrapper of `Client.RegisterListener` from the same stage
(lines 591-611).  The configured encryption service's `Decrypt` and the
Avro `Unmarshal` are oracles. -/

/-- How `GetFig` ends once a fig is resolved: a returned error, a
successful decode of a payload into the target, or the bare `nil`
return that follows a logged decryption failure (the target is left
untouched). -/
inductive GetFigOutcome
  | failed (msg : String)
  | decoded (payload : List Nat)
  | returnedNilWithoutDecoding
deriving Repr, DecidableEq

/-- `Client.GetFig` after evaluation (client.go lines 427-455): decrypt
when a service is configured and the fig is encrypted — a decryption
error is logged and `nil` is returned — then Avro-unmarshal the
payload. -/
def getFigFinish (encConfigured : Bool) (decrypt : Fig → Except String (List Nat))
    (unmarshal : List Nat → Except String Unit) (fig : Fig) : GetFigOutcome :=
  if encConfigured && fig.isEncrypted then
    match decrypt fig with
    | .error _ => .returnedNilWithoutDecoding
    | .ok p =>
      match unmarshal p with
      | .error e => .failed ("failed to unmarshal avro: " ++ e)
      | .ok _ => .decoded p
  else
    match unmarshal fig.payload with
    | .error e => .failed ("failed to unmarshal avro: " ++ e)
    | .ok _ => .decoded fig.payload

/-- Whether a listener callback fires, and with which payload. -/
inductive ListenerOutcome
  | invoked (payload : List Nat)
  | skipped
deriving Repr, DecidableEq

/-- The listener wrapper of `RegisterListener` from the same stage
(client.go lines 591-611): a decryption error is logged and the
callback is simply not invoked, as is any unmarshal failure. -/
def listenerFinish (encConfigured : Bool) (decrypt : Fig → Except String (List Nat))
    (unmarshal : List Nat → Except String Unit) (fig : Fig) : ListenerOutcome :=
  if encConfigured && fig.isEncrypted then
    match decrypt fig with
    | .error _ => .skipped
    | .ok p =>
      match unmarshal p with
      | .error _ => .skipped
      | .ok _ => .invoked p
  else
    match unmarshal fig.payload with
    | .error _ => .skipped
    | .ok _ => .invoked fig.payload

/-- Counterexample to claim C3: with an encryption service configured
and a failing decryption pipeline, `GetFig` does not return the
decryption error — it logs and returns `nil` (client.go lines 432-436,
"Return nil instead of error for resilience"), leaving the target
undecoded. -/
theorem getFig_swallows_decrypt_error_counterexample :
    getFigFinish true (fun _ => .error "decrypt boom") (fun _ => .ok ())
      ⟨"f", "v1", [1], true, [2], none⟩ = .returnedNilWithoutDecoding := by rfl

/-- Claim C3 as amended: when an encryption service is configured and
the decryption pipeline fails on an encrypted fig, both read paths
swallow the error with a log: `GetFig` returns `nil` without decoding
into the target, and the listener callback is not invoked. -/
theorem decrypt_error_swallowed_on_both_paths
    (decrypt : Fig → Except String (List Nat))
    (unmarshal : List Nat → Except String Unit) (fig : Fig) (e : String)
    (henc : fig.isEncrypted = true) (hd : decrypt fig = .error e) :
    getFigFinish true decrypt unmarshal fig = .returnedNilWithoutDecoding ∧
      listenerFinish true decrypt unmarshal fig = .skipped := by
  constructor
  · unfold getFigFinish
    rw [henc, hd]
    rfl
  · unfold listenerFinish
    rw [henc, hd]
    rfl

/-- Witness for the amended C3 at a concrete encrypted fig and failing
pipeline. -/
theorem decrypt_error_swallowed_on_both_paths_witness :
    getFigFinish true (fun _ => .error "bad key") (fun _ => .ok ())
        ⟨"f", "v1", [1], true, [2], none⟩ = .returnedNilWithoutDecoding ∧
      listenerFinish true (fun _ => .error "bad key") (fun _ => .ok ())
        ⟨"f", "v1", [1], true, [2], none⟩ = .skipped :=
  decrypt_error_swallowed_on_both_paths (fun _ => .error "bad key")
    (fun _ => .ok ()) ⟨"f", "v1", [1], true, [2], none⟩ "bad key" rfl rfl

end FigChain
